import Mathlib

/-!
Verification of the session/history core of `main.py` (a command-line chatbot).

Python strings are modelled as `List Char`; Python's `str.split('\n')`,
`str.strip()`, `str.replace(pat, '')`, `str.startswith`, `str.lower()` and the
substring test `pat in s` are given explicit executable models below.  String
literals of the source appear via `String.toList`.  Machine-level details that
the claims do not touch (UTF-8 byte encoding, exotic Unicode whitespace beyond
space/tab/CR/LF) are outside the model.
-/

namespace Chatbot

/-- Conversation role: the `role` argument of `ChatBot.add_message`
(`"user"` or `"model"`). -/
inductive Role where
  | user
  | model
deriving DecidableEq

/-- One in-memory conversation turn: models an element of
`ChatBot.conversation_history` (a `types.Content` with a role and one text
part). -/
structure Turn where
  role : Role
  text : List Char
deriving DecidableEq

/-- The user marker written by `_save_to_log` and matched by
`_load_chat_history`: the literal string written as two asterisks, the smiling
emoji, a space, the Chinese word for "you", a colon and two asterisks. -/
def userMarker : List Char := ['*', '*', '😊', ' ', '你', ':', '*', '*']

/-- The assistant marker: two asterisks, the robot emoji, a space, `AI`,
a colon and two asterisks. -/
def botMarker : List Char := ['*', '*', '🤖', ' ', 'A', 'I', ':', '*', '*']

/-- The marker written for a role by `_save_to_log`
(`"**" + role_display + ":**"`). -/
def markerOf : Role → List Char
  | .user => userMarker
  | .model => botMarker

/-- Model of Python `content.split('\n')`: split at every newline, keeping
empty segments (so `n` newlines yield `n+1` lines). -/
def splitOnNl : List Char → List (List Char)
  | [] => [[]]
  | c :: rest =>
    if c = '\n' then [] :: splitOnNl rest
    else
      match splitOnNl rest with
      | [] => [[c]]
      | l :: ls => (c :: l) :: ls

/-- Model of Python `str.strip()`: drop whitespace from both ends. -/
def strip (l : List Char) : List Char :=
  ((l.dropWhile Char.isWhitespace).reverse.dropWhile Char.isWhitespace).reverse

/-- Whether `pat` occurs as a contiguous substring of `l`: model of Python's
`pat in s` for a nonempty `pat`. -/
def occursIn (pat : List Char) : List Char → Bool
  | [] => pat.isEmpty
  | c :: rest => pat.isPrefixOf (c :: rest) || occursIn pat rest

/-- Worker for `removeAll`.  While `skip` is positive we are inside an already
matched occurrence and drop characters without testing (Python's `replace`
matches non-overlapping occurrences left to right); at `skip = 0` we test for
a fresh occurrence of `pat`. -/
def removeAllGo (pat : List Char) : List Char → Nat → List Char
  | [], _ => []
  | _ :: rest, skip + 1 => removeAllGo pat rest skip
  | c :: rest, 0 =>
    if pat.isPrefixOf (c :: rest) then removeAllGo pat rest (pat.length - 1)
    else c :: removeAllGo pat rest 0

/-- Model of Python `s.replace(pat, '')` for a nonempty `pat`: delete every
(leftmost, non-overlapping) occurrence of `pat` from `s`. -/
def removeAll (pat l : List Char) : List Char := removeAllGo pat l 0

/-- The per-line step of `_load_chat_history`: a line starting with the user
marker yields a user turn whose text is the line with every occurrence of the
marker removed and then stripped, kept only when nonempty (`if text:`);
likewise for the assistant marker; any other line is ignored. -/
def parseLine (line : List Char) : Option Turn :=
  if userMarker.isPrefixOf line then
    let text := strip (removeAll userMarker line)
    if text = [] then none else some ⟨.user, text⟩
  else if botMarker.isPrefixOf line then
    let text := strip (removeAll botMarker line)
    if text = [] then none else some ⟨.model, text⟩
  else none

/-- The History Reconciler: models the parsing loop of
`ChatBot._load_chat_history` applied to the raw log-file content (a missing
file is modelled by the empty content, since the loop then never runs). -/
def reconcile (raw : List Char) : List Turn :=
  (splitOnNl raw).filterMap parseLine

/-- The timestamp line written by `_save_to_log`: asterisk, the two Chinese
characters for "time", colon, space, the timestamp, asterisk. -/
def tsLine (ts : List Char) : List Char :=
  '*' :: '时' :: '间' :: ':' :: ' ' :: (ts ++ ['*'])

/-- One log record as formatted by `_save_to_log`: a newline, the role marker,
a space, the message, a newline, the timestamp line, a newline. -/
def logEntry (r : Role) (message ts : List Char) : List Char :=
  '\n' :: (markerOf r ++ (' ' :: message)) ++ ('\n' :: tsLine ts) ++ ['\n']

/-- Model of `ChatBot._save_to_log`: append one formatted record to the log
file content. -/
def save_to_log (log : List Char) (r : Role) (message ts : List Char) : List Char :=
  log ++ logEntry r message ts

/-- Model of Python `str.lower()` restricted to the characters that occur in
the source's substring tests (ASCII). -/
def lowerList (l : List Char) : List Char := l.map Char.toLower

/-- The error taxonomy of the spec (§4.6): the four classifications the
`except` branch of `ChatBot.get_response` can choose between. -/
inductive ErrorKind where
  | AuthError
  | QuotaExceeded
  | RateLimited
  | TransportError
deriving DecidableEq

/-- The classification performed by the `except` branch of
`ChatBot.get_response` on the failure description `str(e)`, in the source's
branch order: `"API_KEY" in str(e)` first, then `"quota" in str(e).lower()`,
then `"rate" in str(e).lower()`, otherwise the generic failure. -/
def classify (e : List Char) : ErrorKind :=
  if occursIn ("API_KEY".toList) e then .AuthError
  else if occursIn ("quota".toList) (lowerList e) then .QuotaExceeded
  else if occursIn ("rate".toList) (lowerList e) then .RateLimited
  else .TransportError

/-- The operator-visible error message chosen by the `except` branch of
`ChatBot.get_response` for each classification (the source selects the
message directly with the same `if`/`elif` conditions as `classify`). -/
def errorMsgOf (e : List Char) : List Char :=
  match classify e with
  | .AuthError => "❌ API密钥错误，请检查GEMINI_API_KEY环境变量".toList
  | .QuotaExceeded => "❌ API配额已用完，请稍后再试".toList
  | .RateLimited => "❌ 请求频率过高，请稍后再试".toList
  | .TransportError => "❌ API请求失败: ".toList ++ e

/-- One part of a streamed chunk (`chunk.candidates[0].content.parts`): a
thought flag and a text. -/
structure Part where
  thought : Bool
  text : List Char
deriving DecidableEq

/-- The final-answer text of one streamed chunk (`chunk.text`): the
concatenation of the texts of its non-thought parts. -/
def chunkText (parts : List Part) : List Char :=
  ((parts.filter (fun p => !p.thought)).map Part.text).flatten

/-- The accumulation `response_text += chunk.text` over the stream, guarded by
`if chunk.text:` as in the source (appending an empty chunk text is skipped). -/
def collectResponse (chunks : List (List Part)) : List Char :=
  chunks.foldl (fun acc ch => let t := chunkText ch; if t = [] then acc else acc ++ t) []

/-- Outcome of the external model-service call inside the `try` block: either
a failure with description `str(e)`, or the finite list of streamed chunks. -/
abbrev ServiceOutcome := Except (List Char) (List (List Part))

/-- Model of `ChatBot.get_response`: the user's turn is added to the history
and to the log before the service call; on success with nonempty concatenated
text the model turn is added to both and the text returned; on success with
empty text the empty string is returned; on failure the classified error
message is returned.  Result: (new history, new log content, returned
string). -/
def get_response (hist : List Turn) (log : List Char) (userInput tsU tsM : List Char)
    (outcome : ServiceOutcome) : List Turn × List Char × List Char :=
  let hist1 := hist ++ [⟨.user, userInput⟩]
  let log1 := save_to_log log .user userInput tsU
  match outcome with
  | .ok chunks =>
    let response := collectResponse chunks
    if response = [] then (hist1, log1, response)
    else (hist1 ++ [⟨.model, response⟩], save_to_log log1 .model response tsM, response)
  | .error e => (hist1, log1, errorMsgOf e)

/-- The keys of the persona registry `SYSTEM_PROMPTS` (a `dict`, modelled as
an association list in declaration order). -/
def keys (reg : List (List Char × List Char)) : List (List Char) := reg.map Prod.fst

/-- The per-persona log file name: `"chat_" + name + ".md"`. -/
def logFileName (name : List Char) : List Char :=
  "chat_".toList ++ name ++ ".md".toList

/-- The external storage the bot touches: the per-persona log files (name to
content, absent files simply missing from the list) and the `.last_prompt`
selection file's content. -/
structure Env where
  logs : List (List Char × List Char)
  lastPrompt : List Char
deriving DecidableEq

/-- Content of a log file, the empty content when the file is absent
(`_load_chat_history` skips reading in that case, which parses the same as
empty content). -/
def readLog (env : Env) (file : List Char) : List Char :=
  (env.logs.lookup file).getD []

/-- The mutable fields of the `ChatBot` instance that the claims are about:
active persona, log-file binding, in-memory history, and the
`system_instruction` of the generation config rebuilt on each switch. -/
structure BotState where
  current_prompt : List Char
  chat_log_file : List Char
  conversation_history : List Turn
  config_instruction : List Char
deriving DecidableEq

/-- Model of `ChatBot.list_prompts`: the persona names printed to the
operator, in registry order. -/
def list_prompts (reg : List (List Char × List Char)) : List (List Char) :=
  keys reg

/-- Model of `ChatBot.switch_prompt`.  If `name` is a registry key: set the
persona and log-file binding, persist the selection (`_save_last_prompt`),
rebuild the config from the new persona's instruction, reset the history and
re-reconcile it from the new log file; nothing further is reported.  Otherwise
nothing is mutated and the operator is shown the valid names
(`list_prompts`).  Result: (new storage, new bot state, names reported on
rejection). -/
def switch_prompt (reg : List (List Char × List Char)) (env : Env) (st : BotState)
    (name : List Char) : Env × BotState × List (List Char) :=
  if (keys reg).contains name then
    let file := logFileName name
    let env' : Env := { env with lastPrompt := name }
    let st' : BotState :=
      { current_prompt := name
        chat_log_file := file
        config_instruction := (reg.lookup name).getD []
        conversation_history := reconcile (readLog env' file) }
    (env', st', [])
  else
    (env, st, list_prompts reg)

/-- Model of `ChatBot.clear_history`: empty the in-memory history; nothing
else (in particular no file) is touched — the function's type shows it cannot
reach the storage. -/
def clear_history (st : BotState) : BotState :=
  { st with conversation_history := [] }

/-- Model of `ChatBot._load_last_prompt`.  The selection store is `none` when
the `.last_prompt` file is absent, `some none` when reading it raises (the
`except` arm), and `some (some content)` when it holds `content`; the stored
name is the stripped content, returned only when it is a registry key,
otherwise the default persona name (`DEFAULT_PROMPT`). -/
def load_last_prompt (reg : List (List Char × List Char)) (defaultPrompt : List Char)
    (store : Option (Option (List Char))) : List Char :=
  match store with
  | none => defaultPrompt
  | some none => defaultPrompt
  | some (some content) =>
    let last := strip content
    if (keys reg).contains last then last else defaultPrompt

/-- Append a sequence of (role, text, timestamp) turns to a log via
`save_to_log`, starting from the empty file: the log text produced by `N`
calls of `appendTurn` (spec §8.2). -/
def buildLog (turns : List (Role × List Char × List Char)) : List Char :=
  turns.foldl (fun log x => save_to_log log x.1 x.2.1 x.2.2) []

/-- The prefix of every timestamp line written by `_save_to_log`. -/
def tsPrefix : List Char := ['*', '时', '间', ':']

/-- The conditions under which a (role, text, timestamp) turn survives the
lossy log format unchanged: nonempty text, single-line text, no leading or
trailing whitespace in the text, no occurrence of the turn's own role marker
inside the text, and a single-line timestamp. -/
abbrev GoodTurn (x : Role × List Char × List Char) : Prop :=
  x.2.1 ≠ [] ∧ '\n' ∉ x.2.1 ∧ x.2.1.dropWhile Char.isWhitespace = x.2.1 ∧
    x.2.1.reverse.dropWhile Char.isWhitespace = x.2.1.reverse ∧
    occursIn (markerOf x.1) x.2.1 = false ∧ '\n' ∉ x.2.2

/-- The error classification exactly as claim C1 (spec §8.7) words its order:
quota first, then rate, then API_KEY, otherwise the generic failure.  To be
compared with `classify`, which follows the source's order. -/
def classifyClaimC1 (e : List Char) : ErrorKind :=
  if occursIn ("quota".toList) (lowerList e) then .QuotaExceeded
  else if occursIn ("rate".toList) (lowerList e) then .RateLimited
  else if occursIn ("API_KEY".toList) e then .AuthError
  else .TransportError

/-- The History Reconciler exactly as claim C3 words it: a line beginning
with a marker yields a turn whose text is the remainder after the (leading)
prefix, trimmed; other lines are ignored.  To be compared with `reconcile`. -/
def reconcileClaimC3 (raw : List Char) : List Turn :=
  (splitOnNl raw).filterMap (fun line =>
    if userMarker.isPrefixOf line then
      some ⟨.user, strip (line.drop userMarker.length)⟩
    else if botMarker.isPrefixOf line then
      some ⟨.model, strip (line.drop botMarker.length)⟩
    else none)

/-- The line scan of the amended claim C3, transliterated from its words:
scan the lines sequentially; a line beginning with the user marker yields a
user turn whose text is the line with every occurrence of the user marker
removed and then trimmed, emitted only when that text is nonempty;
symmetrically for the assistant marker; every other line is ignored (in
particular a marker not at line start never starts a turn); output order is
line order. -/
def scanSpec : List (List Char) → List Turn
  | [] => []
  | line :: rest =>
    if userMarker.isPrefixOf line then
      let text := strip (removeAll userMarker line)
      if text = [] then scanSpec rest else ⟨.user, text⟩ :: scanSpec rest
    else if botMarker.isPrefixOf line then
      let text := strip (removeAll botMarker line)
      if text = [] then scanSpec rest else ⟨.model, text⟩ :: scanSpec rest
    else scanSpec rest

/-- The reconciler as described by the amended claim C3. -/
def reconcileAmendedC3 (raw : List Char) : List Turn :=
  scanSpec (splitOnNl raw)

/-- A turn sequence on which the literal round-trip of claim C2 fails in four
independent ways: a multi-line text, an empty text, a text with leading
whitespace, and a text containing its own role marker. -/
def c2BadTurns : List (Role × List Char × List Char) :=
  [(.user, "a\nb".toList, "t1".toList),
   (.model, [], "t2".toList),
   (.user, " x".toList, "t3".toList),
   (.model, "q **🤖 AI:** w".toList, "t4".toList)]

/-- A concrete well-behaved turn sequence (spec §8.5's example dialogue). -/
def c2GoodTurns : List (Role × List Char × List Char) :=
  [(.user, "hello".toList, "2024-01-01 00:00:00".toList),
   (.model, "hi there".toList, "2024-01-01 00:00:01".toList)]

/-- A concrete two-persona registry used by the witnesses. -/
def wReg : List (List Char × List Char) :=
  [("general".toList, "sysA".toList), ("coder".toList, "sysB".toList)]

/-- A concrete storage state: one log file for persona `general`, and
`general` as the persisted selection. -/
def wEnv : Env :=
  ⟨[("chat_general.md".toList, "\n**😊 你:** hello\n*时间: t*\n".toList)],
   "general".toList⟩

/-- A concrete bot state hydrated from `wEnv`'s log for persona `general`. -/
def wSt : BotState :=
  ⟨"general".toList, logFileName "general".toList,
   reconcile (readLog wEnv (logFileName "general".toList)), "sysA".toList⟩

/-! Helper lemmas about the string primitives. -/

theorem isPrefixOf_self_append (p s : List Char) : p.isPrefixOf (p ++ s) = true := by
  induction p with
  | nil => simp [List.isPrefixOf]
  | cons c cs ih => simp [List.isPrefixOf, ih]

theorem eq_append_of_isPrefixOf {p l : List Char} (h : p.isPrefixOf l = true) :
    ∃ r, l = p ++ r := by
  induction p generalizing l with
  | nil => exact ⟨l, rfl⟩
  | cons c cs ih =>
    cases l with
    | nil => simp [List.isPrefixOf] at h
    | cons d ds =>
      rw [List.isPrefixOf, Bool.and_eq_true, beq_iff_eq] at h
      obtain ⟨r, hr⟩ := ih h.2
      exact ⟨r, by rw [h.1, hr]; rfl⟩

theorem splitOnNl_cons_nl (rest : List Char) :
    splitOnNl ('\n' :: rest) = [] :: splitOnNl rest := by
  simp [splitOnNl]

theorem splitOnNl_append_nl {a : List Char} (r : List Char) (ha : '\n' ∉ a) :
    splitOnNl (a ++ '\n' :: r) = a :: splitOnNl r := by
  induction a with
  | nil => simp [splitOnNl]
  | cons c cs ih =>
    have hc : ¬ c = '\n' := fun h => ha (h ▸ List.mem_cons_self _ _)
    have ha' : '\n' ∉ cs := fun h => ha (List.mem_cons_of_mem _ h)
    rw [List.cons_append, splitOnNl, if_neg hc, ih ha']

theorem removeAllGo_skip (pat : List Char) (d : List Char) :
    ∀ x, removeAllGo pat (d ++ x) d.length = removeAllGo pat x 0 := by
  induction d with
  | nil => intro x; rfl
  | cons c cs ih => intro x; simp [removeAllGo, ih x]

theorem removeAllGo_no_occur (pat : List Char) :
    ∀ l, occursIn pat l = false → removeAllGo pat l 0 = l := by
  intro l
  induction l with
  | nil => intro _; rfl
  | cons c rest ih =>
    intro h
    rw [occursIn, Bool.or_eq_false_iff] at h
    simp [removeAllGo, h.1, ih h.2]

theorem removeAll_self_append (c : Char) (cs x : List Char)
    (h : occursIn (c :: cs) x = false) :
    removeAll (c :: cs) ((c :: cs) ++ x) = x := by
  have hp : (c :: cs).isPrefixOf (c :: (cs ++ x)) = true := by
    have := isPrefixOf_self_append (c :: cs) x
    rwa [List.cons_append] at this
  show removeAllGo (c :: cs) ((c :: cs) ++ x) 0 = x
  rw [List.cons_append]
  rw [show removeAllGo (c :: cs) (c :: (cs ++ x)) 0
      = if (c :: cs).isPrefixOf (c :: (cs ++ x)) then
          removeAllGo (c :: cs) (cs ++ x) ((c :: cs).length - 1)
        else c :: removeAllGo (c :: cs) (cs ++ x) 0 from rfl]
  rw [if_pos hp]
  have hlen : (c :: cs).length - 1 = cs.length := by simp
  rw [hlen, removeAllGo_skip, removeAllGo_no_occur _ _ h]

theorem marker_not_isPrefixOf_space (r : Role) (t : List Char) :
    (markerOf r).isPrefixOf (' ' :: t) = false := by
  cases r <;> rfl

theorem removeAll_marker (r : Role) (t : List Char)
    (hocc : occursIn (markerOf r) t = false) :
    removeAll (markerOf r) (markerOf r ++ (' ' :: t)) = ' ' :: t := by
  have h' : occursIn (markerOf r) (' ' :: t) = false := by
    rw [occursIn, marker_not_isPrefixOf_space, hocc]
    rfl
  cases r
  · exact removeAll_self_append '*' ['*', '😊', ' ', '你', ':', '*', '*'] (' ' :: t) h'
  · exact removeAll_self_append '*' ['*', '🤖', ' ', 'A', 'I', ':', '*', '*'] (' ' :: t) h'

theorem strip_space_cons (t : List Char)
    (hl : t.dropWhile Char.isWhitespace = t)
    (hr : t.reverse.dropWhile Char.isWhitespace = t.reverse) :
    strip (' ' :: t) = t := by
  have h1 : (' ' :: t).dropWhile Char.isWhitespace = t := by
    rw [List.dropWhile_cons, if_pos (by decide), hl]
  rw [strip, h1, hr, List.reverse_reverse]

theorem parseLine_nil : parseLine [] = none := rfl

theorem parseLine_tsLine (ts : List Char) : parseLine (tsLine ts) = none := rfl

theorem parseLine_entryLine (r : Role) (t : List Char)
    (hne : t ≠ [])
    (hl : t.dropWhile Char.isWhitespace = t)
    (hr : t.reverse.dropWhile Char.isWhitespace = t.reverse)
    (hocc : occursIn (markerOf r) t = false) :
    parseLine (markerOf r ++ (' ' :: t)) = some ⟨r, t⟩ := by
  have hstrip : strip (removeAll (markerOf r) (markerOf r ++ (' ' :: t))) = t := by
    rw [removeAll_marker r t hocc, strip_space_cons t hl hr]
  cases r
  · have hp : userMarker.isPrefixOf (userMarker ++ (' ' :: t)) = true :=
      isPrefixOf_self_append _ _
    simp only [markerOf] at hstrip ⊢
    rw [parseLine, if_pos hp]
    simp only [hstrip, if_neg hne]
  · have hp1 : userMarker.isPrefixOf (botMarker ++ (' ' :: t)) = false := rfl
    have hp2 : botMarker.isPrefixOf (botMarker ++ (' ' :: t)) = true :=
      isPrefixOf_self_append _ _
    simp only [markerOf] at hstrip ⊢
    rw [parseLine, if_neg (by simp [hp1]), if_pos hp2]
    simp only [hstrip, if_neg hne]

theorem nl_not_mem_entryLine (r : Role) (t : List Char) (ht : '\n' ∉ t) :
    '\n' ∉ markerOf r ++ (' ' :: t) := by
  intro hmem
  rcases List.mem_append.1 hmem with h | h
  · cases r
    · exact absurd h (by decide)
    · exact absurd h (by decide)
  · rcases List.mem_cons.1 h with h | h
    · exact absurd h (by decide)
    · exact ht h

theorem nl_not_mem_tsLine (ts : List Char) (hts : '\n' ∉ ts) : '\n' ∉ tsLine ts := by
  intro h
  rw [tsLine] at h
  rcases List.mem_cons.1 h with h | h; · exact absurd h (by decide)
  rcases List.mem_cons.1 h with h | h; · exact absurd h (by decide)
  rcases List.mem_cons.1 h with h | h; · exact absurd h (by decide)
  rcases List.mem_cons.1 h with h | h; · exact absurd h (by decide)
  rcases List.mem_cons.1 h with h | h; · exact absurd h (by decide)
  rcases List.mem_append.1 h with h | h
  · exact hts h
  · exact absurd h (by decide)

theorem splitOnNl_logEntry_append (r : Role) (t ts rest : List Char)
    (ht : '\n' ∉ t) (hts : '\n' ∉ ts) :
    splitOnNl (logEntry r t ts ++ rest)
      = [] :: (markerOf r ++ (' ' :: t)) :: tsLine ts :: splitOnNl rest := by
  have hshape : logEntry r t ts ++ rest
      = '\n' :: ((markerOf r ++ (' ' :: t)) ++ '\n' :: (tsLine ts ++ '\n' :: rest)) := by
    simp [logEntry]
  rw [hshape, splitOnNl_cons_nl, splitOnNl_append_nl _ (nl_not_mem_entryLine r t ht),
    splitOnNl_append_nl _ (nl_not_mem_tsLine ts hts)]

theorem buildLog_eq_flatten (turns : List (Role × List Char × List Char)) :
    buildLog turns = List.flatten (turns.map (fun x => logEntry x.1 x.2.1 x.2.2)) := by
  have key : ∀ (ts : List (Role × List Char × List Char)) (acc : List Char),
      ts.foldl (fun log x => save_to_log log x.1 x.2.1 x.2.2) acc
        = acc ++ List.flatten (ts.map (fun x => logEntry x.1 x.2.1 x.2.2)) := by
    intro ts
    induction ts with
    | nil => intro acc; simp
    | cons x xs ih =>
      intro acc
      rw [List.foldl_cons, ih, List.map_cons, List.flatten_cons]
      simp only [save_to_log]
      rw [List.append_assoc]
  simpa [buildLog] using key turns []

theorem reconcile_flatten (turns : List (Role × List Char × List Char))
    (h : ∀ x ∈ turns, GoodTurn x) :
    reconcile (List.flatten (turns.map (fun x => logEntry x.1 x.2.1 x.2.2)))
      = turns.map (fun x => ⟨x.1, x.2.1⟩) := by
  induction turns with
  | nil => rfl
  | cons x xs ih =>
    obtain ⟨hne, ht, hl, hr, hocc, hts⟩ := h x (List.mem_cons_self _ _)
    have hrest : ∀ y ∈ xs, GoodTurn y := fun y hy => h y (List.mem_cons_of_mem _ hy)
    rw [List.map_cons, List.flatten_cons, reconcile,
      splitOnNl_logEntry_append x.1 x.2.1 x.2.2 _ ht hts]
    rw [List.filterMap_cons_none parseLine_nil,
      List.filterMap_cons_some (parseLine_entryLine x.1 x.2.1 hne hl hr hocc),
      List.filterMap_cons_none (parseLine_tsLine x.2.2)]
    rw [show (splitOnNl (List.flatten (xs.map (fun y => logEntry y.1 y.2.1 y.2.2)))).filterMap parseLine
        = reconcile (List.flatten (xs.map (fun y => logEntry y.1 y.2.1 y.2.2))) from rfl]
    rw [ih hrest, List.map_cons]

theorem filterMap_eq_nil_of_none {α β : Type} (f : α → Option β) :
    ∀ l : List α, (∀ a ∈ l, f a = none) → l.filterMap f = [] := by
  intro l
  induction l with
  | nil => intro _; rfl
  | cons a as ih =>
    intro h
    rw [List.filterMap_cons_none (h a (List.mem_cons_self _ _))]
    exact ih fun b hb => h b (List.mem_cons_of_mem _ hb)

theorem parseLine_eq_none_of_ws (l : List Char) (h : l.all Char.isWhitespace = true) :
    parseLine l = none := by
  cases l with
  | nil => rfl
  | cons c rest =>
    rw [List.all_cons, Bool.and_eq_true] at h
    have hstar : ('*' == c) = false := by
      cases hb : ('*' == c)
      · rfl
      · exact absurd (eq_of_beq hb ▸ h.1) (by decide)
    have h1 : userMarker.isPrefixOf (c :: rest) = false := by
      rw [show userMarker.isPrefixOf (c :: rest)
          = (('*' == c) && (['*', '😊', ' ', '你', ':', '*', '*'].isPrefixOf rest)) from rfl]
      rw [hstar, Bool.false_and]
    have h2 : botMarker.isPrefixOf (c :: rest) = false := by
      rw [show botMarker.isPrefixOf (c :: rest)
          = (('*' == c) && (['*', '🤖', ' ', 'A', 'I', ':', '*', '*'].isPrefixOf rest)) from rfl]
      rw [hstar, Bool.false_and]
    rw [parseLine, if_neg (by simp [h1]), if_neg (by simp [h2])]

theorem parseLine_eq_none_of_tsPrefix (l : List Char) (h : tsPrefix.isPrefixOf l = true) :
    parseLine l = none := by
  obtain ⟨r, rfl⟩ := eq_append_of_isPrefixOf h
  rfl

theorem errorMsgOf_ne_nil (e : List Char) : errorMsgOf e ≠ [] := by
  rw [errorMsgOf]
  cases classify e
  · show "❌ API密钥错误，请检查GEMINI_API_KEY环境变量".toList ≠ []
    decide
  · show "❌ API配额已用完，请稍后再试".toList ≠ []
    decide
  · show "❌ 请求频率过高，请稍后再试".toList ≠ []
    decide
  · show "❌ API请求失败: ".toList ++ e ≠ []
    intro h
    exact absurd (List.append_eq_nil.1 h).1 (by decide)

/-! Claim theorems. -/

/-- C1, counterexample: on the failure description `"API_KEY quota"` the code
(which tests `API_KEY` first) classifies `AuthError`, while the claim's order
(quota first) would classify `QuotaExceeded`; so the code's classification
does not follow the claim's order. -/
theorem c1_counterexample :
    classify ("API_KEY quota".toList) = .AuthError ∧
    classifyClaimC1 ("API_KEY quota".toList) = .QuotaExceeded ∧
    classify ("API_KEY quota".toList) ≠ classifyClaimC1 ("API_KEY quota".toList) :=
  ⟨by decide, by decide, by decide⟩

/-- C1, amended: for every model-service failure during submit, the returned
error classification follows the source's order: if the failure's description
contains `"API_KEY"` (case-sensitively) it classifies as AuthError; else if
it contains `"quota"` case-insensitively it classifies as QuotaExceeded; else
if it contains `"rate"` case-insensitively it classifies as RateLimited;
otherwise TransportError. -/
theorem c1_classify_order (e : List Char) :
    (occursIn ("API_KEY".toList) e = true → classify e = .AuthError) ∧
    (occursIn ("API_KEY".toList) e = false →
      occursIn ("quota".toList) (lowerList e) = true → classify e = .QuotaExceeded) ∧
    (occursIn ("API_KEY".toList) e = false →
      occursIn ("quota".toList) (lowerList e) = false →
      occursIn ("rate".toList) (lowerList e) = true → classify e = .RateLimited) ∧
    (occursIn ("API_KEY".toList) e = false →
      occursIn ("quota".toList) (lowerList e) = false →
      occursIn ("rate".toList) (lowerList e) = false → classify e = .TransportError) := by
  refine ⟨fun h1 => ?_, fun h1 h2 => ?_, fun h1 h2 h3 => ?_, fun h1 h2 h3 => ?_⟩
  · simp only [classify]; rw [h1]; simp
  · simp only [classify]; rw [h1, h2]; simp
  · simp only [classify]; rw [h1, h2, h3]; simp
  · simp only [classify]; rw [h1, h2, h3]; simp

/-- C1, witness: the description `"Quota exceeded"` contains no `"API_KEY"`,
contains `"quota"` case-insensitively, and classifies as QuotaExceeded. -/
theorem c1_classify_order_witness :
    occursIn ("API_KEY".toList) ("Quota exceeded".toList) = false ∧
    occursIn ("quota".toList) (lowerList ("Quota exceeded".toList)) = true ∧
    classify ("Quota exceeded".toList) = .QuotaExceeded :=
  ⟨by decide, by decide,
    (c1_classify_order ("Quota exceeded".toList)).2.1 (by decide) (by decide)⟩

/-- C9: on a user-marker line whose text portion itself contains the user
marker, the reconciler removes every occurrence of the marker (Python
`replace`), so the produced turn's text `"a  b"` differs from the
remainder-after-prefix `"a **😊 你:** b"`. -/
theorem c9_removes_every_marker_occurrence :
    parseLine ("**😊 你:** a **😊 你:** b".toList) = some ⟨.user, "a  b".toList⟩ ∧
    strip (("**😊 你:** a **😊 你:** b".toList).drop userMarker.length)
      = "a **😊 你:** b".toList ∧
    "a  b".toList ≠ "a **😊 你:** b".toList :=
  ⟨by decide, by decide, by decide⟩

/-- C10: the AuthError test is case-sensitive: the description `"api_key"`
contains `"api_key"` in lowercase and contains neither `"quota"` nor
`"rate"` case-insensitively, yet it classifies as TransportError (not
AuthError), and submit returns the generic-transport message for it. -/
theorem c10_apikey_case_sensitive :
    occursIn ("api_key".toList) ("api_key".toList) = true ∧
    occursIn ("quota".toList) (lowerList ("api_key".toList)) = false ∧
    occursIn ("rate".toList) (lowerList ("api_key".toList)) = false ∧
    classify ("api_key".toList) = .TransportError ∧
    classify ("api_key".toList) ≠ .AuthError ∧
    (get_response [] [] ("x".toList) ("t".toList) ("t".toList)
        (.error ("api_key".toList))).2.2
      = "❌ API请求失败: ".toList ++ "api_key".toList :=
  ⟨by decide, by decide, by decide, by decide, by decide, by decide⟩

/-- C3, counterexample: on a log whose first line contains a second user
marker mid-line and whose second line is a bare user marker, the reconciler
differs from the claim's description: the code removes every marker
occurrence (not just the leading prefix) and drops the marker-only line
instead of emitting an empty turn. -/
theorem c3_counterexample :
    reconcile ("**😊 你:** a **😊 你:** b\n**😊 你:**".toList)
      ≠ reconcileClaimC3 ("**😊 你:** a **😊 你:** b\n**😊 你:**".toList) ∧
    reconcile ("**😊 你:** a **😊 你:** b\n**😊 你:**".toList)
      = [⟨.user, "a  b".toList⟩] ∧
    reconcileClaimC3 ("**😊 你:** a **😊 你:** b\n**😊 你:**".toList)
      = [⟨.user, "a **😊 你:** b".toList⟩, ⟨.user, []⟩] :=
  ⟨by decide, by decide, by decide⟩

/-- C3, amended: for every raw log text, the reconciler splits it into lines
and scans sequentially: a line beginning with the user marker yields a user
turn whose text is the line with every occurrence of that marker removed and
then trimmed, emitted only when nonempty; a line beginning with the
assistant marker likewise yields a model turn; all other lines are ignored;
output order equals line order; a marker appearing mid-line does not start a
turn. -/
theorem c3_reconcile_algorithm (raw : List Char) :
    reconcile raw = reconcileAmendedC3 raw := by
  rw [reconcile, reconcileAmendedC3]
  generalize splitOnNl raw = lines
  induction lines with
  | nil => rfl
  | cons l ls ih =>
    by_cases h1 : userMarker.isPrefixOf l = true
    · by_cases h2 : strip (removeAll userMarker l) = []
      · simp [List.filterMap_cons, parseLine, scanSpec, h1, h2, ih]
      · simp [List.filterMap_cons, parseLine, scanSpec, h1, h2, ih]
    · by_cases h3 : botMarker.isPrefixOf l = true
      · by_cases h2 : strip (removeAll botMarker l) = []
        · simp [List.filterMap_cons, parseLine, scanSpec, h1, h2, h3, ih]
        · simp [List.filterMap_cons, parseLine, scanSpec, h1, h2, h3, ih]
      · simp [List.filterMap_cons, parseLine, scanSpec, h1, h3, ih]

/-- C4: reconciling an empty (or absent, which reads as empty) log yields no
turns; a log whose every line is whitespace-only or a timestamp line yields
no turns; and a marker line whose extracted text is empty after trimming is
dropped rather than emitted as a turn. -/
theorem c4_degenerate_logs :
    reconcile [] = [] ∧
    (∀ raw, (∀ l ∈ splitOnNl raw,
        l.all Char.isWhitespace = true ∨ tsPrefix.isPrefixOf l = true) →
      reconcile raw = []) ∧
    (∀ line, userMarker.isPrefixOf line = true →
      strip (removeAll userMarker line) = [] → parseLine line = none) ∧
    (∀ line, userMarker.isPrefixOf line = false → botMarker.isPrefixOf line = true →
      strip (removeAll botMarker line) = [] → parseLine line = none) := by
  refine ⟨rfl, ?_, ?_, ?_⟩
  · intro raw hcond
    rw [reconcile]
    refine filterMap_eq_nil_of_none _ _ fun l hl => ?_
    rcases hcond l hl with h | h
    · exact parseLine_eq_none_of_ws l h
    · exact parseLine_eq_none_of_tsPrefix l h
  · intro line hpre hempty
    rw [parseLine, if_pos hpre]
    simp only [hempty, if_true]
  · intro line hu hb hempty
    rw [parseLine, if_neg (by simp [hu]), if_pos hb]
    simp only [hempty, if_true]

/-- C4, witness: a log of one timestamp line, one whitespace-only line and a
blank line reconciles to no turns, and the marker-only lines (user and
assistant) are dropped. -/
theorem c4_degenerate_logs_witness :
    ((∀ l ∈ splitOnNl ("*时间: 2024-01-01 00:00:00*\n \n".toList),
        l.all Char.isWhitespace = true ∨ tsPrefix.isPrefixOf l = true) ∧
      reconcile ("*时间: 2024-01-01 00:00:00*\n \n".toList) = []) ∧
    (userMarker.isPrefixOf ("**😊 你:**   ".toList) = true ∧
      strip (removeAll userMarker ("**😊 你:**   ".toList)) = [] ∧
      parseLine ("**😊 你:**   ".toList) = none) ∧
    (userMarker.isPrefixOf ("**🤖 AI:** ".toList) = false ∧
      botMarker.isPrefixOf ("**🤖 AI:** ".toList) = true ∧
      strip (removeAll botMarker ("**🤖 AI:** ".toList)) = [] ∧
      parseLine ("**🤖 AI:** ".toList) = none) :=
  ⟨⟨by decide, c4_degenerate_logs.2.1 _ (by decide)⟩,
   ⟨by decide, by decide, c4_degenerate_logs.2.2.1 _ (by decide) (by decide)⟩,
   ⟨by decide, by decide, by decide,
    c4_degenerate_logs.2.2.2 _ (by decide) (by decide) (by decide)⟩⟩

/-- C2, counterexample: appending four turns (one multi-line text, one empty
text, one text with leading whitespace, one text containing its own role
marker) and reconciling does not return four matching turns — it returns
three turns with altered texts. -/
theorem c2_counterexample :
    reconcile (buildLog c2BadTurns)
      ≠ c2BadTurns.map (fun x => ⟨x.1, x.2.1⟩) ∧
    reconcile (buildLog c2BadTurns)
      = [⟨.user, "a".toList⟩, ⟨.user, "x".toList⟩, ⟨.model, "q  w".toList⟩] :=
  ⟨by decide, by decide⟩

/-- C2, amended: for every sequence of N turns whose texts are nonempty,
single-line, free of leading/trailing whitespace and do not contain their own
role marker, and whose timestamps are single-line, appending them via
`appendTurn` (`save_to_log`) to an initially empty log and reconciling the
resulting log text yields exactly N turns whose roles and texts match the
appended ones, in order (timestamps are not preserved). -/
theorem c2_roundtrip (turns : List (Role × List Char × List Char))
    (h : ∀ x ∈ turns, GoodTurn x) :
    reconcile (buildLog turns) = turns.map (fun x => ⟨x.1, x.2.1⟩) := by
  rw [buildLog_eq_flatten]
  exact reconcile_flatten turns h

/-- C2, witness: the round-trip on the spec §8.5 dialogue. -/
theorem c2_roundtrip_witness :
    (∀ x ∈ c2GoodTurns, GoodTurn x) ∧
    reconcile (buildLog c2GoodTurns)
      = [⟨.user, "hello".toList⟩, ⟨.model, "hi there".toList⟩] :=
  ⟨by decide, by rw [c2_roundtrip c2GoodTurns (by decide)]; decide⟩

/-- C5: switching to a name that is not in the persona registry is rejected
with no state mutation at all — the storage (log files and persisted
selection) and the bot state (active persona, log-file binding, turns,
generation config) are returned unchanged — and the operator is shown the
full list of valid persona names. -/
theorem c5_switch_rejected (reg : List (List Char × List Char)) (env : Env)
    (st : BotState) (name : List Char)
    (h : (keys reg).contains name = false) :
    switch_prompt reg env st name = (env, st, list_prompts reg) := by
  rw [switch_prompt, if_neg (fun hc => by rw [h] at hc; exact Bool.false_ne_true hc)]

/-- C5, witness: switching `wSt` to the unregistered name `"nonexistent"`
changes nothing and reports both registered personas. -/
theorem c5_switch_rejected_witness :
    (keys wReg).contains ("nonexistent".toList) = false ∧
    switch_prompt wReg wEnv wSt ("nonexistent".toList)
      = (wEnv, wSt, ["general".toList, "coder".toList]) :=
  ⟨by decide,
   by rw [c5_switch_rejected wReg wEnv wSt ("nonexistent".toList) (by decide)]; decide⟩

/-- C6: `clear_history` empties the in-memory turns while leaving the active
persona, the log-file binding, the generation config and (by its type, which
cannot reach the storage) the log files untouched; a subsequent
`switch_prompt` to the same persona reconciles afresh from the unchanged log
file, so when the pre-clear turns agreed with the log's reconciliation they
are restored. -/
theorem c6_clear_then_switch (reg : List (List Char × List Char)) (env : Env)
    (st : BotState)
    (hreg : (keys reg).contains st.current_prompt = true)
    (hfile : st.chat_log_file = logFileName st.current_prompt) :
    (clear_history st).conversation_history = [] ∧
    (clear_history st).current_prompt = st.current_prompt ∧
    (clear_history st).chat_log_file = st.chat_log_file ∧
    (clear_history st).config_instruction = st.config_instruction ∧
    (switch_prompt reg env (clear_history st) st.current_prompt).1.logs = env.logs ∧
    (switch_prompt reg env (clear_history st) st.current_prompt).2.1.conversation_history
      = reconcile (readLog env st.chat_log_file) ∧
    (st.conversation_history = reconcile (readLog env st.chat_log_file) →
      (switch_prompt reg env (clear_history st) st.current_prompt).2.1.conversation_history
        = st.conversation_history) := by
  have hif : switch_prompt reg env (clear_history st) st.current_prompt
      = ({ env with lastPrompt := st.current_prompt },
         { current_prompt := st.current_prompt
           chat_log_file := logFileName st.current_prompt
           config_instruction := (reg.lookup st.current_prompt).getD []
           conversation_history :=
             reconcile (readLog { env with lastPrompt := st.current_prompt }
               (logFileName st.current_prompt)) },
         []) := by
    rw [switch_prompt, if_pos hreg]
  have hread : readLog { env with lastPrompt := st.current_prompt }
      (logFileName st.current_prompt) = readLog env st.chat_log_file := by
    rw [hfile]; rfl
  refine ⟨rfl, rfl, rfl, rfl, ?_, ?_, ?_⟩
  · rw [hif]
  · rw [hif]; exact congrArg reconcile hread
  · intro hsync
    rw [hif]
    exact (congrArg reconcile hread).trans hsync.symm

/-- C6, witness: on the concrete hydrated state `wSt`, clearing empties the
turns and switching back to `general` restores them. -/
theorem c6_clear_then_switch_witness :
    (keys wReg).contains wSt.current_prompt = true ∧
    wSt.chat_log_file = logFileName wSt.current_prompt ∧
    (clear_history wSt).conversation_history = [] ∧
    wSt.conversation_history = [⟨.user, "hello".toList⟩] ∧
    (switch_prompt wReg wEnv (clear_history wSt) wSt.current_prompt).2.1.conversation_history
      = wSt.conversation_history := by
  have h := c6_clear_then_switch wReg wEnv wSt (by decide) rfl
  exact ⟨by decide, rfl, h.1, by decide, h.2.2.2.2.2.2 rfl⟩

/-- C7, counterexample: when the service call succeeds but streams no text,
`get_response` leaves only the user's turn in the history and returns the
empty string — which is not the error message of any failure — so the
claim's "the error message itself is the value returned" fails for the
empty-response case. -/
theorem c7_counterexample :
    (get_response [] [] ("hi".toList) ("t".toList) ("t".toList) (.ok [])).1
      = [⟨.user, "hi".toList⟩] ∧
    (get_response [] [] ("hi".toList) ("t".toList) ("t".toList) (.ok [])).2.2 = [] ∧
    ∀ e, (get_response [] [] ("hi".toList) ("t".toList) ("t".toList) (.ok [])).2.2
      ≠ errorMsgOf e := by
  refine ⟨by decide, by decide, fun e heq => ?_⟩
  exact errorMsgOf_ne_nil e (by rw [← heq]; rfl)

/-- C7, amended: for every user input, if the model-service call fails, the
history gains exactly the user's turn (no model turn), the log gains exactly
the user's record, and the classified error message itself is the returned
value; if the call succeeds but the concatenated response text is empty, the
history again gains exactly the user's turn and the empty string is the
returned value.  History is never corrupted by an error. -/
theorem c7_error_leaves_history (hist : List Turn) (log : List Char)
    (input tsU tsM : List Char) (outcome : ServiceOutcome) :
    (∀ e, outcome = .error e →
      (get_response hist log input tsU tsM outcome).1 = hist ++ [⟨.user, input⟩] ∧
      (get_response hist log input tsU tsM outcome).2.1
        = save_to_log log .user input tsU ∧
      (get_response hist log input tsU tsM outcome).2.2 = errorMsgOf e) ∧
    (∀ chunks, outcome = .ok chunks → collectResponse chunks = [] →
      (get_response hist log input tsU tsM outcome).1 = hist ++ [⟨.user, input⟩] ∧
      (get_response hist log input tsU tsM outcome).2.1
        = save_to_log log .user input tsU ∧
      (get_response hist log input tsU tsM outcome).2.2 = []) := by
  constructor
  · rintro e rfl
    exact ⟨rfl, rfl, rfl⟩
  · rintro chunks rfl hempty
    refine ⟨?_, ?_, ?_⟩ <;> simp [get_response, hempty]

/-- C7, witness: a quota failure records only the user's turn and returns the
quota message; a stream holding a single thought-only chunk records only the
user's turn and returns the empty string. -/
theorem c7_error_leaves_history_witness :
    (get_response [] [] ("hi".toList) ("t1".toList) ("t2".toList)
        (.error ("quota".toList))).1 = [⟨.user, "hi".toList⟩] ∧
    (get_response [] [] ("hi".toList) ("t1".toList) ("t2".toList)
        (.error ("quota".toList))).2.2 = errorMsgOf ("quota".toList) ∧
    collectResponse [[⟨true, "think".toList⟩]] = [] ∧
    (get_response [] [] ("hi".toList) ("t1".toList) ("t2".toList)
        (.ok [[⟨true, "think".toList⟩]])).1 = [⟨.user, "hi".toList⟩] ∧
    (get_response [] [] ("hi".toList) ("t1".toList) ("t2".toList)
        (.ok [[⟨true, "think".toList⟩]])).2.2 = [] := by
  have h1 := (c7_error_leaves_history [] [] ("hi".toList) ("t1".toList) ("t2".toList)
    (.error ("quota".toList))).1 ("quota".toList) rfl
  have h2 := (c7_error_leaves_history [] [] ("hi".toList) ("t1".toList) ("t2".toList)
    (.ok [[⟨true, "think".toList⟩]])).2 [[⟨true, "think".toList⟩]] rfl (by decide)
  exact ⟨by rw [h1.1]; rfl, h1.2.2, by decide, by rw [h2.1]; rfl, h2.2.2⟩

/-- C8: `_load_last_prompt` is total on every state of the selection store
(it never raises — an unreadable store is the caught-exception case): when
the store is absent or unreadable it returns the default persona name; when
the store holds content, it returns the stored (stripped) name exactly when
that name is a key of the persona registry and the default otherwise; in
particular it returns a stored name only when that name is registered. -/
theorem c8_load_last_prompt (reg : List (List Char × List Char)) (d : List Char)
    (store : Option (Option (List Char))) :
    (store = none → load_last_prompt reg d store = d) ∧
    (store = some none → load_last_prompt reg d store = d) ∧
    (∀ c, store = some (some c) →
      ((keys reg).contains (strip c) = true →
        load_last_prompt reg d store = strip c) ∧
      ((keys reg).contains (strip c) = false →
        load_last_prompt reg d store = d)) ∧
    (load_last_prompt reg d store = d ∨
      ∃ c, store = some (some c) ∧ load_last_prompt reg d store = strip c ∧
        (keys reg).contains (strip c) = true) := by
  rcases store with _ | st
  · exact ⟨fun _ => rfl, by simp, by simp, Or.inl rfl⟩
  rcases st with _ | c
  · exact ⟨by simp, fun _ => rfl, by simp, Or.inl rfl⟩
  refine ⟨by simp, by simp, ?_, ?_⟩
  · intro c' hc'
    obtain rfl : c = c' := by simpa using hc'
    constructor <;> intro hb <;> rw [load_last_prompt] <;> rw [hb] <;> rfl
  · cases hb : (keys reg).contains (strip c)
    · exact Or.inl (by rw [load_last_prompt, hb]; rfl)
    · exact Or.inr ⟨c, rfl, by rw [load_last_prompt, hb]; rfl, hb⟩

/-- C8, witness: with the two-persona registry, an absent store, an
unreadable store and an unregistered stored name all yield the default, and
a stored registered name (with surrounding whitespace, which the source
strips) is returned. -/
theorem c8_load_last_prompt_witness :
    load_last_prompt wReg ("general".toList) none = "general".toList ∧
    load_last_prompt wReg ("general".toList) (some none) = "general".toList ∧
    ((keys wReg).contains (strip (" coder \n".toList)) = true ∧
      load_last_prompt wReg ("general".toList) (some (some (" coder \n".toList)))
        = strip (" coder \n".toList)) ∧
    ((keys wReg).contains (strip ("zzz".toList)) = false ∧
      load_last_prompt wReg ("general".toList) (some (some ("zzz".toList)))
        = "general".toList) :=
  ⟨(c8_load_last_prompt wReg ("general".toList) none).1 rfl,
   (c8_load_last_prompt wReg ("general".toList) (some none)).2.1 rfl,
   ⟨by decide,
    ((c8_load_last_prompt wReg ("general".toList)
      (some (some (" coder \n".toList)))).2.2.1 _ rfl).1 (by decide)⟩,
   ⟨by decide,
    ((c8_load_last_prompt wReg ("general".toList)
      (some (some ("zzz".toList)))).2.2.1 _ rfl).2 (by decide)⟩⟩

end Chatbot
